import Mathlib

/-!
# Verification of the misanthrope_PM commit-ingestion pipeline

Shallow embedding of the task-reconstruction pipeline of the
`misanthrope_PM` repository and proofs about it.  Python strings are
modelled as `List Char` (called `Str` below); Python exceptions as an
`Except PyErr` error monad; the external generation backend and the
standard-library JSON decoder are modelled as explicit function
parameters (oracles).  Every definition is translated from the source
files named in its doc comment.
-/

namespace MPM

/-- Python strings are modelled as lists of characters. -/
abbrev Str := List Char

/-- The Python exception kinds that the embedded code can raise. -/
inductive PyErr where
  | keyError
  | valueError
  | typeError
  | attributeError
  | indexError
  | jsonError
  | backendError
  deriving DecidableEq, Repr

/-! ## Python primitive operations on strings and lists -/

/-- Worker for `pySplit`.  Models CPython `str.split(sep)` for a
non-empty separator by a left-to-right scan: when the separator is a
prefix of the remaining text a chunk boundary is emitted and the next
`sep.length - 1` characters are consumed through the `skip` counter. -/
def pySplitAux (delim : Str) : Str → Nat → List Str
  | [], _ => [[]]
  | _ :: cs, skip + 1 => pySplitAux delim cs skip
  | c :: cs, 0 =>
    if delim.isPrefixOf (c :: cs) then
      [] :: pySplitAux delim cs (delim.length - 1)
    else
      match pySplitAux delim cs 0 with
      | [] => [[c]]
      | r :: rs => (c :: r) :: rs

/-- Python `text.split(delim)` for a non-empty delimiter. -/
def pySplit (delim text : Str) : List Str :=
  pySplitAux delim text 0

/-- Python `sep.join(parts)`. -/
def pyJoin (sep : Str) : List Str → Str
  | [] => []
  | [x] => x
  | x :: y :: xs => x ++ sep ++ pyJoin sep (y :: xs)

/-- Python `s.strip()`: remove leading and trailing whitespace. -/
def pyStrip (s : Str) : Str :=
  ((s.dropWhile Char.isWhitespace).reverse.dropWhile Char.isWhitespace).reverse

/-- Worker for `pySplitWhite`; `acc` is the (reversed) token being read. -/
def pySplitWhiteAux : Str → Str → List Str
  | [], acc => if acc = [] then [] else [acc.reverse]
  | c :: cs, acc =>
    if c.isWhitespace then
      if acc = [] then pySplitWhiteAux cs []
      else acc.reverse :: pySplitWhiteAux cs []
    else pySplitWhiteAux cs (c :: acc)

/-- Python `s.split()` (no argument): split on whitespace runs,
dropping empty tokens. -/
def pySplitWhite (s : Str) : List Str :=
  pySplitWhiteAux s []

/-- Python `l[i]` for a non-negative index: `IndexError` when out of
range. -/
def listGet {α : Type} (l : List α) (i : Nat) : Except PyErr α :=
  match l.get? i with
  | some a => Except.ok a
  | none => Except.error PyErr.indexError

/-! ## `src/app/models.py` -/

/-- `Category` enum (`src/app/models.py` lines 7-10): members `I`, `F`,
`B`, each with a one-letter string value. -/
inductive Category where
  | I
  | F
  | B
  deriving DecidableEq, Repr

/-- The Python enum call `Category(v)`: returns the member whose value
is `v`, raising `ValueError` otherwise.  (Calling the enum on a member
itself also returns that member; call sites that do so are modelled by
passing the member's `value`.) -/
def Category.ofValue : Str → Except PyErr Category
  | ['I'] => Except.ok Category.I
  | ['F'] => Except.ok Category.F
  | ['B'] => Except.ok Category.B
  | _ => Except.error PyErr.valueError

/-- `Category.value`. -/
def Category.value : Category → Str
  | Category.I => ['I']
  | Category.F => ['F']
  | Category.B => ['B']

/-- `SkillLevel` enum (`src/app/models.py` lines 12-16). -/
inductive SkillLevel where
  | junior
  | middle
  | senior
  | architect
  deriving DecidableEq, Repr

/-- `SkillLevel(v)` on a string value. -/
def SkillLevel.ofValue (s : Str) : Except PyErr SkillLevel :=
  if s = "junior".data then Except.ok SkillLevel.junior
  else if s = "middle".data then Except.ok SkillLevel.middle
  else if s = "senior".data then Except.ok SkillLevel.senior
  else if s = "architect".data then Except.ok SkillLevel.architect
  else Except.error PyErr.valueError

/-- Values that appear in the keyword-argument dictionaries passed to
`ClosedTask.__init__` in this repository. -/
inductive PyVal where
  | none
  | int (n : Int)
  | str (s : Str)
  | skill (s : SkillLevel)
  deriving DecidableEq, Repr

/-- `to_int` (`src/app/models.py` lines 18-22): `int(num)`, with any
exception caught and turned into `None`.  (No call site passes a
numeric string, so string-to-int conversion is not exercised and
conversion of non-integers yields `none` as in the source's `except`
branch.) -/
def to_int : PyVal → Option Int
  | PyVal.int n => some n
  | _ => none

/-- `ClosedTask` (`src/app/models.py` lines 24-35).  Fields that
`__init__` does not assign are unset attributes in Python; they are
modelled as `none`. -/
structure ClosedTask where
  text : Str
  category : Category
  estimated_time : Option Int := none
  min_skill_level : Option SkillLevel := none
  planned_at : Option Int := none
  started_at : Option Int := none
  finished_at : Option Int := none
  lines_added : Option Int := none
  lines_removed : Option Int := none
  deriving DecidableEq, Repr

/-- Python `dict.pop(key)`: remove the first binding of `key` and
return its value, raising `KeyError` when the key is absent. -/
def dictPop (key : Str) : List (Str × PyVal) → Except PyErr (PyVal × List (Str × PyVal))
  | [] => Except.error PyErr.keyError
  | (k, v) :: rest =>
    if k = key then Except.ok (v, rest)
    else do
      let (v', rest') ← dictPop key rest
      Except.ok (v', (k, v) :: rest')

/-- One iteration of the `for key, value in data.items()` loop in
`ClosedTask.__init__` (`src/app/models.py` lines 44-62): assign the
recognized field, ignore unknown keys.  `SkillLevel(value)` can raise
`ValueError` for an unrecognized string and `TypeError`-like failures
for other values; both are surfaced. -/
def ClosedTask.setField (t : ClosedTask) : Str × PyVal → Except PyErr ClosedTask
  | (key, value) =>
    if key = "estimated_time".data then
      Except.ok { t with estimated_time := if value = PyVal.none then none else to_int value }
    else if key = "min_skill_level".data then
      match value with
      | PyVal.skill s => Except.ok { t with min_skill_level := some s }
      | PyVal.none => Except.ok t
      | PyVal.str s => do
          let lvl ← SkillLevel.ofValue s
          Except.ok { t with min_skill_level := some lvl }
      | PyVal.int _ => Except.error PyErr.valueError
    else if key = "planned_at".data then
      Except.ok { t with planned_at := if value = PyVal.none then none else to_int value }
    else if key = "started_at".data then
      Except.ok { t with started_at := if value = PyVal.none then none else to_int value }
    else if key = "finished_at".data then
      Except.ok { t with finished_at := if value = PyVal.none then none else to_int value }
    else if key = "lines_added".data then
      Except.ok { t with lines_added := if value = PyVal.none then none else to_int value }
    else if key = "lines_removed".data then
      Except.ok { t with lines_removed := if value = PyVal.none then none else to_int value }
    else
      Except.ok t

/-- Fold `ClosedTask.setField` over the remaining dictionary items. -/
def ClosedTask.setFields (t : ClosedTask) : List (Str × PyVal) → Except PyErr ClosedTask
  | [] => Except.ok t
  | kv :: rest => do
    let t' ← ClosedTask.setField t kv
    ClosedTask.setFields t' rest

/-- `ClosedTask.__init__` (`src/app/models.py` lines 37-62).
`text` and `category` are the two declared parameters; `data` is the
`**data` keyword dictionary.  The body assigns `self.text`, resolves
`self.category = Category(category)`, then performs
`data.pop("text")` and `data.pop("category")` before the field loop. -/
def ClosedTask.init (text : Str) (category : Str) (data : List (Str × PyVal)) :
    Except PyErr ClosedTask := do
  let cat ← Category.ofValue category
  let (_, d1) ← dictPop "text".data data
  let (_, d2) ← dictPop "category".data d1
  ClosedTask.setFields
    { text := text, category := cat } d2

/-- Python `str(member)` of a `SkillLevel`. -/
def SkillLevel.pyStr : SkillLevel → Str
  | SkillLevel.junior => "SkillLevel.junior".data
  | SkillLevel.middle => "SkillLevel.middle".data
  | SkillLevel.senior => "SkillLevel.senior".data
  | SkillLevel.architect => "SkillLevel.architect".data

/-- `ClosedTask.__str__` (`src/app/models.py` lines 73-79).  Note that
`f'{self.category}'` renders the enum member as `Category.X`, so the
serialized line ends with the one-letter category code.  The two
optional lines are guarded by Python truthiness (`if
self.estimated_time:`), so a zero estimate is not printed. -/
def ClosedTask.pyStr (t : ClosedTask) : Str :=
  let base := t.text ++ [' '] ++ ("Category.".data ++ t.category.value)
  let base :=
    match t.estimated_time with
    | some n =>
      if n = 0 then base
      else base ++ "\nEstimated time: ".data ++ (toString n).data ++ " h".data
    | none => base
  match t.min_skill_level with
  | some s => base ++ "\nSkill need to: ".data ++ s.pyStr
  | none => base

/-! ## `src/app/utils.py` -/

/-- The per-line body of the list comprehension in `load_closed_tasks`
(`src/app/utils.py` lines 15-25): build a `ClosedTask` from one line of
a closed-tasks file.  The call passes `text` and `category` as the two
declared parameters and five further keyword arguments, which Python
collects into `**data`; `file_ts` stands for the
`int(datetime(...).timestamp())` value derived from the file name and
the current year (external clock and file system input). -/
def load_closed_tasks_line (line : Str) (file_ts : Int) : Except PyErr ClosedTask := do
  let last ← listGet (pyStrip line) ((pyStrip line).length - 1)
  let cat ← Category.ofValue [last]
  ClosedTask.init (line.take (line.length - 3)) cat.value
    [("estimated_time".data, PyVal.none),
     ("min_skill_level".data, PyVal.none),
     ("planned_at".data, PyVal.none),
     ("started_at".data, PyVal.none),
     ("finished_at".data, PyVal.int file_ts)]

/-- One row of the DataFrame built by `load_git_logs`
(`src/app/utils.py` lines 31-42).  The later `pd.to_datetime` /
`day` / `timestamp` derivations only re-express the `date` column and
are not needed by any claim below. -/
structure CommitRec where
  text : Str
  author : Str
  date : Str
  title : Str
  insertions : Nat
  deletions : Nat
  deriving DecidableEq, Repr

/-- The per-block dictionary of `load_git_logs` (`src/app/utils.py`
lines 33-40), in source evaluation order: `c.split('\n')[1].split()[1]`
(author), `" ".join(c.split('\n')[2].split()[1:])` (date),
`c.split('\n')[4]` (title), and the `+`/`-` line counts.  A missing
positional line raises `IndexError`. -/
def parse_commit_block (c : Str) : Except PyErr CommitRec := do
  let lines := pySplit ['\n'] c
  let l1 ← listGet lines 1
  let author ← listGet (pySplitWhite l1) 1
  let l2 ← listGet lines 2
  let date := pyJoin [' '] ((pySplitWhite l2).drop 1)
  let title ← listGet lines 4
  Except.ok
    { text := c
      author := author
      date := date
      title := title
      insertions := (lines.filter (fun l => ['+'].isPrefixOf l)).length
      deletions := (lines.filter (fun l => ['-'].isPrefixOf l)).length }

/-- Parse every block of the list comprehension left to right; the
first raised exception aborts the whole comprehension. -/
def parse_blocks : List Str → Except PyErr (List CommitRec)
  | [] => Except.ok []
  | b :: bs => do
    let r ← parse_commit_block b
    let rs ← parse_blocks bs
    Except.ok (r :: rs)

/-- The delimiter of `load_git_logs`: `"\n\ncommit "`. -/
def commitDelim : Str := "\n\ncommit ".data

/-- `load_git_logs` (`src/app/utils.py` lines 29-47):
`f.read().split("\n\ncommit ")` followed by the row comprehension.  An
exception in any block propagates and no DataFrame is produced. -/
def load_git_logs (text : Str) : Except PyErr (List CommitRec) :=
  parse_blocks (pySplit commitDelim text)

/-! ## `src/app/context_keeper.py` -/

/-- Python truthiness of the `Optional[int]` field `finished_at`:
`None` and `0` are falsy. -/
def intTruthy : Option Int → Bool
  | some v => v ≠ 0
  | none => false

/-- The first `continue` test of `PMContext.get_tasks`
(`src/app/context_keeper.py` line 75):
`from_date and task.finished_at and task.finished_at > from_timestamp`.
`datetime` arguments are modelled by their (strictly monotone) epoch
timestamps. -/
def skipFrom (from_ts : Option Int) (task : ClosedTask) : Bool :=
  match from_ts, task.finished_at with
  | some f, some fa => intTruthy (some fa) && decide (f < fa)
  | _, _ => false

/-- The second `continue` test (`src/app/context_keeper.py` line 77):
`to_date and task.finished_at and task.finished_at < to_timestamp`. -/
def skipTo (to_ts : Option Int) (task : ClosedTask) : Bool :=
  match to_ts, task.finished_at with
  | some t, some fa => intTruthy (some fa) && decide (fa < t)
  | _, _ => false

/-- The category `continue` test (`src/app/context_keeper.py` line 81):
`category and task.category.value != category`; an empty category
string is falsy and disables the filter. -/
def skipCategory (category : Option Str) (task : ClosedTask) : Bool :=
  match category with
  | some c => if c = [] then false else decide (task.category.value ≠ c)
  | none => false

/-- `PMContext.get_tasks` (`src/app/context_keeper.py` lines 60-86):
keep every stored task that none of the three `continue` tests
skips, in stored order. -/
def get_tasks (closed_tasks : List ClosedTask) (from_ts to_ts : Option Int)
    (category : Option Str) : List ClosedTask :=
  closed_tasks.filter fun task =>
    !skipFrom from_ts task && !skipTo to_ts task && !skipCategory category task

/-- A stored commit row as seen by `PMContext.get_logs`: only the `day`
column matters; `day` is `none` for a row whose date failed to parse
(pandas `NaT`, for which both comparisons below are false). -/
structure LogRow where
  day : Option Int
  deriving DecidableEq, Repr

/-- `day >= from_date` under pandas semantics (`NaT` compares false). -/
def dayGE (row : LogRow) (bound : Int) : Bool :=
  match row.day with
  | some d => decide (bound ≤ d)
  | none => false

/-- `day <= to_date` under pandas semantics. -/
def dayLE (row : LogRow) (bound : Int) : Bool :=
  match row.day with
  | some d => decide (d ≤ bound)
  | none => false

/-- `PMContext.get_logs` (`src/app/context_keeper.py` lines 88-104):
start from an all-true mask and conjoin `day >= from_date` and
`day <= to_date` for the bounds that are supplied. -/
def get_logs (git_logs : List LogRow) (from_d to_d : Option Int) : List LogRow :=
  git_logs.filter fun row =>
    (match from_d with | some f => dayGE row f | none => true) &&
    (match to_d with | some t => dayLE row t | none => true)

/-! ## `src/app/core/git_reverse_analyst.py`

The generation backend (`ollama.Client.generate`) and the standard
library's `json.loads` are external collaborators; they appear as
explicit function parameters.  A backend call either raises or returns
a response object with `done`, `total_duration` and `response`
attributes. -/

/-- The response object returned by `client.generate`. -/
structure Resp where
  done : Bool
  total_duration : Nat
  response : Str
  deriving DecidableEq, Repr

/-- JSON values as returned by `json.loads`. -/
inductive Json where
  | null
  | bool (b : Bool)
  | num (n : Int)
  | str (s : Str)
  | arr (elems : List Json)
  | obj (fields : List (Str × Json))

/-- Field lookup in a JSON object. -/
def lookupField : List (Str × Json) → Str → Option Json
  | [], _ => none
  | (k, v) :: rest, key => if k = key then some v else lookupField rest key

/-- Python `value[key]` for a string key: object lookup (raising
`KeyError` when absent), `TypeError` on every other JSON value. -/
def Json.getItem : Json → Str → Except PyErr Json
  | Json.obj fields, key =>
    match lookupField fields key with
    | some v => Except.ok v
    | none => Except.error PyErr.keyError
  | _, _ => Except.error PyErr.typeError

/-- Python `for x in value`: arrays yield elements, strings yield
one-character strings, objects yield their keys; the remaining values
are not iterable. -/
def Json.pyIter : Json → Except PyErr (List Json)
  | Json.arr xs => Except.ok xs
  | Json.str s => Except.ok (s.map fun ch => Json.str [ch])
  | Json.obj fields => Except.ok (fields.map fun kv => Json.str kv.1)
  | _ => Except.error PyErr.typeError

/-- Python `str()` of the value carried in `unfinished_moves`.  The
pipeline initializes the variable to `""` and threads JSON field
values through it; only string values are ever exercised by the
theorems below, so the rendering of the other shapes (never relied
on) is left as the empty text. -/
def pyStrOfJson : Json → Str
  | Json.str s => s
  | _ => []

/-- The fence-stripping step of `_parse_response`
(`src/app/core/git_reverse_analyst.py` lines 153-154):
`if text.startswith("```"): text = "\n".join(text.split('\n')[1:-1])`. -/
def stripFence (text : Str) : Str :=
  if "```".data.isPrefixOf text then
    pyJoin ['\n'] ((pySplit ['\n'] text).drop 1).dropLast
  else text

/-- The task comprehension of `_parse_response`
(`src/app/core/git_reverse_analyst.py` lines 157-159):
`[ClosedTask(task["text"], task["category"], task) for task in ...]`.
Each element first evaluates `task["text"]` and `task["category"]`;
the constructor call itself then passes three positional arguments to
`ClosedTask.__init__(self, text, category, **data)`, which accepts
only two, so every element raises `TypeError`.  Only an empty list
survives. -/
def build_tasks : List Json → Except PyErr (List ClosedTask)
  | [] => Except.ok []
  | t :: _ => do
    let _ ← t.getItem "text".data
    let _ ← t.getItem "category".data
    Except.error PyErr.typeError

/-- `GitReverseAnalyst._parse_response`
(`src/app/core/git_reverse_analyst.py` lines 151-160).  `closed_at`
is accepted and ignored exactly as in the source.  The second
component of the result is `result['unfinished_moves']`, whatever
JSON value that is. -/
def parse_response (jsonLoads : Str → Except PyErr Json) (respText : Str) (_closed_at : Int) :
    Except PyErr (List ClosedTask × Json) := do
  let text := stripFence respText
  let result ← jsonLoads text
  let tasksJson ← result.getItem "tasks".data
  let taskItems ← tasksJson.pyIter
  let tasks ← build_tasks taskItems
  let moves ← result.getItem "unfinished_moves".data
  Except.ok (tasks, moves)

/-- A commit row as consumed by `analyze_git_logs` after
`logs.to_dict('records')`: the fields the state machine reads. -/
structure CommitRow where
  text : Str
  title : Str
  timestamp : Int
  deriving DecidableEq, Repr

/-- Literal pieces of the f-string `prompt` in `analyze_commit`
(`src/app/core/git_reverse_analyst.py` lines 124-135). -/
def promptP1 : Str := "\n            PREVIOUS_UNFINISHED_MOVES = \"".data

/-- Second literal piece of the `prompt` f-string. -/
def promptP2 : Str := "\"\n\n            COMMIT:\n            <commit_text>\n            ".data

/-- Third literal piece of the `prompt` f-string. -/
def promptP3 : Str := "\n            </commit_text>\n\n            COMMIT_TITLE: \"".data

/-- Fourth literal piece of the `prompt` f-string. -/
def promptP4 : Str := "\"\n\n            STRINGLY Follow the JSON protocol exactly.\n            ".data

/-- The `prompt` f-string of `analyze_commit`, with the commit text
truncated to 100000 characters (`commit['text'][:100000]`). -/
def inner_prompt (c : CommitRow) (moves : Json) : Str :=
  promptP1 ++ pyStrOfJson moves ++ promptP2 ++ c.text.take 100000 ++
    promptP3 ++ c.title ++ promptP4

/-- `full_prompt = f"{self.setup_prompt}\n{self.base_prompt}\n {prompt}\n{self.setup_prompt}"`
(`src/app/core/git_reverse_analyst.py` line 136).  `setup` and `base`
are the instance attributes built in `__init__` (the reference-task
serialization they embed does not matter to any claim). -/
def full_prompt (setup base : Str) (c : CommitRow) (moves : Json) : Str :=
  setup ++ ['\n'] ++ base ++ "\n ".data ++ inner_prompt c moves ++ ['\n'] ++ setup

/-- What `analyze_commit` hands back to its caller: either the early
`return [], unfinished_moves` tuple taken when the prompt is oversized,
or the backend's response object. -/
inductive GenResult where
  | earlyReturn (tasks : List ClosedTask) (moves : Json)
  | resp (r : Resp)

/-- `GitReverseAnalyst.analyze_commit`
(`src/app/core/git_reverse_analyst.py` lines 123-149): build the full
prompt; if its length exceeds 90000 return the `([], unfinished_moves)`
tuple without calling the backend, otherwise call
`client.generate` (which may raise). -/
def analyze_commit (genCall : Str → Except PyErr Resp) (setup base : Str)
    (c : CommitRow) (moves : Json) : Except PyErr GenResult :=
  let fp := full_prompt setup base c moves
  if 90000 < fp.length then Except.ok (GenResult.earlyReturn [] moves)
  else (genCall fp).map GenResult.resp

/-- One pass of the `while attempts > 0` body in `analyze_git_logs`
(`src/app/core/git_reverse_analyst.py` lines 84-96), for a fixed
backend outcome `genCall` of this attempt.  The boolean records
whether a backend call was made.  When `analyze_commit` took its early
return, the subsequent `response.done` attribute access on the
returned tuple raises `AttributeError`, caught by the `except` like
any other failure. -/
def attempt_step (genCall : Except PyErr Resp) (jsonLoads : Str → Except PyErr Json)
    (setup base : Str) (c : CommitRow) (moves : Json) :
    Bool × Except PyErr (List ClosedTask × Json) :=
  match analyze_commit (fun _ => genCall) setup base c moves with
  | Except.error e => (true, Except.error e)
  | Except.ok (GenResult.earlyReturn _ _) => (false, Except.error PyErr.attributeError)
  | Except.ok (GenResult.resp r) => (true, parse_response jsonLoads r.response c.timestamp)

/-- The `while attempts > 0` retry loop for one commit, with `gen a`
the backend outcome when `a` attempts remain (`a` counts 3, 2, 1).
Returns the first successful `(tasks, unfinished_moves)` result if
any, together with the number of backend calls made and the number of
loop iterations used.  The prompt (and hence the oversize test) is the
same on every attempt because `unfinished_moves` is only reassigned on
success, which exits the loop. -/
def retry_loop (gen : Nat → Except PyErr Resp) (jsonLoads : Str → Except PyErr Json)
    (setup base : Str) (c : CommitRow) (moves : Json) :
    Nat → Option (List ClosedTask × Json) × Nat × Nat
  | 0 => (none, 0, 0)
  | n + 1 =>
    match attempt_step (gen (n + 1)) jsonLoads setup base c moves with
    | (b, Except.ok v) => (some v, cond b 1 0, 1)
    | (b, Except.error _) =>
      let r := retry_loop gen jsonLoads setup base c moves n
      (r.1, r.2.1 + cond b 1 0, r.2.2 + 1)

/-- The Python locals of `analyze_git_logs` that survive from one
commit to the next: `unfinished_moves`, the loop-local `tasks`
(whose binding, if any, is the batch of the last successful parse --
`none` models a still-unbound local), and the accumulator
`tasks_doiting`. -/
structure LoopSt where
  unfinished_moves : Json
  tasksVar : Option (List ClosedTask)
  tasks_doiting : List ClosedTask

/-- Effect of one commit's retry loop on the locals
(`src/app/core/git_reverse_analyst.py` lines 83-96): on the first
successful attempt, `tasks, unfinished_moves` are assigned and
`tasks_doiting += tasks`; if all attempts fail, every local is left
untouched. -/
def process_commit (gen : Nat → Except PyErr Resp) (jsonLoads : Str → Except PyErr Json)
    (setup base : Str) (c : CommitRow) (st : LoopSt) : LoopSt × Nat × Nat :=
  match retry_loop gen jsonLoads setup base c st.unfinished_moves 3 with
  | (some (ts, mv), calls, iters) =>
    ({ unfinished_moves := mv, tasksVar := some ts,
       tasks_doiting := st.tasks_doiting ++ ts }, calls, iters)
  | (none, calls, iters) => (st, calls, iters)

/-- Observable record of one iteration of the `for i in range(2,
len(commits))` loop. -/
structure StepInfo where
  idx : Nat
  movesBefore : Json
  movesAfter : Json
  calls : Nat
  iters : Nat
  yielded : Option (List ClosedTask)

/-- The commit loop of `analyze_git_logs`
(`src/app/core/git_reverse_analyst.py` lines 82-98).  After each
commit's retry loop the generator executes `yield tasks, None`; if the
local `tasks` has never been assigned (every attempt of every commit
so far failed) that statement raises `NameError` and the generator
aborts, which is modelled by a final `StepInfo` with `yielded = none`
and no further steps.  `oracle i a` is the backend outcome for commit
index `i` when `a` attempts remain. -/
def run_loop (oracle : Nat → Nat → Except PyErr Resp) (jsonLoads : Str → Except PyErr Json)
    (setup base : Str) : Nat → List CommitRow → LoopSt → List StepInfo
  | _, [], _ => []
  | i, c :: cs, st =>
    let r := process_commit (oracle i) jsonLoads setup base c st
    match r.1.tasksVar with
    | none =>
      [{ idx := i, movesBefore := st.unfinished_moves, movesAfter := r.1.unfinished_moves,
         calls := r.2.1, iters := r.2.2, yielded := none }]
    | some b =>
      { idx := i, movesBefore := st.unfinished_moves, movesAfter := r.1.unfinished_moves,
        calls := r.2.1, iters := r.2.2, yielded := some b } ::
        run_loop oracle jsonLoads setup base (i + 1) cs r.1

/-- The locals at the top of `analyze_git_logs`:
`unfinished_moves = ""`, `tasks` unbound, `tasks_doiting = []`. -/
def initState : LoopSt :=
  { unfinished_moves := Json.str [], tasksVar := none, tasks_doiting := [] }

/-- `GitReverseAnalyst.analyze_git_logs`
(`src/app/core/git_reverse_analyst.py` lines 71-104): the rows are
re-ordered by `commits.reverse()` and `for i in range(2,
len(commits))` then walks `commits[2:]`, so the processed sequence is
`logs.reverse.drop 2`.  The trailing statistics/persistence code runs
only after the last yield and produces no further batch. -/
def analyze_git_logs (oracle : Nat → Nat → Except PyErr Resp)
    (jsonLoads : Str → Except PyErr Json) (setup base : Str)
    (logs : List CommitRow) : List StepInfo :=
  run_loop oracle jsonLoads setup base 2 (logs.reverse.drop 2) initState

/-! ## Concrete inputs used by witnesses and counterexamples -/

/-- A JSON decoder that rejects every input (models `json.loads`
raising on non-JSON text). -/
def loadsFail : Str → Except PyErr Json :=
  fun _ => Except.error PyErr.jsonError

/-- A backend whose every call raises. -/
def oracleFail : Nat → Nat → Except PyErr Resp :=
  fun _ _ => Except.error PyErr.backendError

/-- A reply text used by the concrete runs; it is the text `myLoads`
accepts. -/
def goodText : Str := "J".data

/-- The JSON value `myLoads` decodes `goodText` to: an object with an
empty `tasks` array and an empty `unfinished_moves` string. -/
def goodJson : Json :=
  Json.obj [("tasks".data, Json.arr []), ("unfinished_moves".data, Json.str [])]

/-- A JSON decoder accepting exactly `goodText`. -/
def myLoads : Str → Except PyErr Json :=
  fun s => if s = goodText then Except.ok goodJson else Except.error PyErr.jsonError

/-- A successful backend response carrying `goodText`. -/
def respOK : Resp := { done := true, total_duration := 0, response := goodText }

/-- A backend that always succeeds with `respOK`. -/
def oracleOK : Nat → Nat → Except PyErr Resp :=
  fun _ _ => Except.ok respOK

/-- A backend that fails on commit index 2 and succeeds afterwards. -/
def oracleC2 : Nat → Nat → Except PyErr Resp :=
  fun i _ => if i = 2 then Except.error PyErr.backendError else Except.ok respOK

/-- A small commit row. -/
def rowA : CommitRow := { text := "aaa".data, title := "t1".data, timestamp := 0 }

/-- Three identical small commit rows. -/
def logs3 : List CommitRow := [rowA, rowA, rowA]

/-- Four identical small commit rows. -/
def logs4 : List CommitRow := [rowA, rowA, rowA, rowA]

/-- A commit row whose text alone makes the assembled prompt exceed
the 90000-character ceiling. -/
def bigRow : CommitRow :=
  { text := List.replicate 100000 'a', title := [], timestamp := 0 }

/-- A task finished at timestamp 150, used against `get_tasks`. -/
def task150 : ClosedTask :=
  { text := "t".data, category := Category.B, finished_at := some 150 }

/-- A raw log whose first block is well-formed and whose second block
lacks the title line (block layout: line 0 hash remainder, line 1
author, line 2 date, line 3 blank, line 4 title). -/
def badLogC6 : Str :=
  "commit aaa\nAuthor: alice <a@x>\nDate: Mon Oct 2\n\nfirst title\n+x\n-y\n\ncommit bbb\nAuthor: bob\nDate: D".data

/-- The well-formed first block of `badLogC6`. -/
def goodBlockC6 : Str :=
  "commit aaa\nAuthor: alice <a@x>\nDate: Mon Oct 2\n\nfirst title\n+x\n-y".data

/-- The malformed second block of `badLogC6`. -/
def badBlockC6 : Str := "bbb\nAuthor: bob\nDate: D".data

/-- Document preamble placed before the first delimiter; shaped like a
well-formed block so that parsing it succeeds. -/
def preC7 : Str := "some preamble\nAuthor: carol x\nDate: D\n\npreamble title".data

/-- A well-formed block following the preamble. -/
def blockC7 : Str := "bbb\nAuthor: alice <a@x>\nDate: Mon Oct 2\n\nsecond title\n+x".data

/-- A raw log with a document preamble before the first delimiter. -/
def textC7 : Str := preC7 ++ (commitDelim ++ blockC7)

/-- A closed-tasks file line with trailing category code `B`. -/
def taskLineC8 : Str := "Fix login bug B\n".data

/-- A keyword dictionary without `text`/`category` keys as built at
the `load_closed_tasks` call site (restricted to one entry for the
witness). -/
def dataC10 : List (Str × PyVal) := [("finished_at".data, PyVal.int 0)]

/-- The step record produced by running the pipeline on `logs3` with
an always-failing backend: three backend calls, three loop passes,
carry-over unchanged, generator aborted at the yield. -/
def stepC4 : StepInfo :=
  { idx := 2, movesBefore := Json.str [], movesAfter := Json.str [],
    calls := 3, iters := 3, yielded := none }

/-- Whether an embedded Python computation completed without raising. -/
def pyOk {α : Type} : Except PyErr α → Bool
  | Except.ok _ => true
  | Except.error _ => false

instance instDecEqExcept {ε α : Type} [DecidableEq ε] [DecidableEq α] :
    DecidableEq (Except ε α) := fun x y =>
  match x, y with
  | Except.ok a, Except.ok b =>
    if h : a = b then Decidable.isTrue (by rw [h])
    else Decidable.isFalse (fun hh => by cases hh; exact h rfl)
  | Except.error a, Except.error b =>
    if h : a = b then Decidable.isTrue (by rw [h])
    else Decidable.isFalse (fun hh => by cases hh; exact h rfl)
  | Except.ok _, Except.error _ => Decidable.isFalse (fun hh => Except.noConfusion hh)
  | Except.error _, Except.ok _ => Decidable.isFalse (fun hh => Except.noConfusion hh)

@[simp] theorem error_bind {α β : Type} (e : PyErr) (f : α → Except PyErr β) :
    (Except.error e >>= f : Except PyErr β) = Except.error e := rfl

@[simp] theorem ok_bind {α β : Type} (a : α) (f : α → Except PyErr β) :
    (Except.ok a >>= f : Except PyErr β) = f a := rfl

/-! ## Lemmas about the Python string primitives -/

theorem pySplitAux_ne_nil (delim : Str) : ∀ (t : Str) (skip : Nat), pySplitAux delim t skip ≠ []
  | [], 0 => by simp [pySplitAux]
  | [], _ + 1 => by simp [pySplitAux]
  | _ :: cs, n + 1 => by
    simpa [pySplitAux] using pySplitAux_ne_nil delim cs n
  | c :: cs, 0 => by
    by_cases h : delim.isPrefixOf (c :: cs)
    · simp [pySplitAux, h]
    · cases hcs : pySplitAux delim cs 0 with
      | nil => exact absurd hcs (pySplitAux_ne_nil delim cs 0)
      | cons r rs => simp [pySplitAux, h, hcs]

theorem pySplit_ne_nil (delim t : Str) : pySplit delim t ≠ [] :=
  pySplitAux_ne_nil delim t 0

theorem pySplitAux_skip (delim : Str) : ∀ (xs t : Str), pySplitAux delim (xs ++ t) xs.length = pySplitAux delim t 0
  | [], _ => rfl
  | x :: xs, t => by
    simpa [pySplitAux] using pySplitAux_skip delim xs t

theorem isPrefixOf_append_self : ∀ (l t : Str), l.isPrefixOf (l ++ t) = true
  | [], _ => by simp
  | c :: l, t => by
    simp [List.isPrefixOf_cons₂, isPrefixOf_append_self l t]

theorem isPrefixOf_append_left : ∀ (l f t : Str), l.isPrefixOf f = true → l.isPrefixOf (f ++ t) = true
  | [], _, _, _ => by simp
  | _ :: _, [], _, h => by simp at h
  | a :: l, b :: f, t, h => by
    simp only [List.isPrefixOf_cons₂, Bool.and_eq_true, beq_iff_eq] at h
    obtain ⟨h1, h2⟩ := h
    subst h1
    simp only [List.cons_append, List.isPrefixOf_cons₂, beq_self_eq_true, Bool.true_and]
    exact isPrefixOf_append_left l f t h2

theorem isPrefixOf_single (d c : Char) (t : Str) :
    [d].isPrefixOf (c :: t) = decide (d = c) := by
  simp [List.isPrefixOf_cons₂, beq_eq_decide]

/-- Splitting at a leading delimiter character. -/
theorem pySplit_cons_self (d : Char) (t : Str) :
    pySplit [d] (d :: t) = [] :: pySplit [d] t := by
  simp [pySplit, pySplitAux, isPrefixOf_single]

/-- Splitting at a leading non-delimiter character. -/
theorem pySplit_cons_ne (d c : Char) (t : Str) (h : c ≠ d) (r : Str) (rs : List Str)
    (ht : pySplit [d] t = r :: rs) :
    pySplit [d] (c :: t) = (c :: r) :: rs := by
  have hpre : [d].isPrefixOf (c :: t) = false := by
    rw [isPrefixOf_single]
    exact decide_eq_false (fun hh => h hh.symm)
  simp only [pySplit, pySplitAux, hpre, Bool.false_eq_true, if_false]
  rw [show pySplitAux [d] t 0 = r :: rs from ht]

/-- A text without the delimiter character is a single chunk. -/
theorem pySplit_no_delim (d : Char) : ∀ (f : Str), d ∉ f → pySplit [d] f = [f]
  | [], _ => rfl
  | c :: f, h => by
    have hc : c ≠ d := by rintro rfl; exact h (List.mem_cons_self c f)
    have hf := pySplit_no_delim d f (fun hm => h (List.mem_cons_of_mem c hm))
    exact pySplit_cons_ne d c f hc f [] hf

/-- Splitting `f ++ d :: t` when `f` avoids `d` cuts exactly at `d`. -/
theorem pySplit_append_cons (d : Char) : ∀ (f t : Str), d ∉ f →
    pySplit [d] (f ++ d :: t) = f :: pySplit [d] t
  | [], t, _ => pySplit_cons_self d t
  | c :: f, t, h => by
    have hc : c ≠ d := by rintro rfl; exact h (List.mem_cons_self c f)
    have hf := pySplit_append_cons d f t (fun hm => h (List.mem_cons_of_mem c hm))
    cases hsplit : pySplit [d] t with
    | nil => exact absurd hsplit (pySplit_ne_nil [d] t)
    | cons r rs =>
      rw [hsplit] at hf
      have := pySplit_cons_ne d c (f ++ d :: t) hc f (r :: rs) hf
      simpa using this

/-- Splitting `t ++ d :: g` when the tail `g` avoids `d`: the last chunk
is `g`. -/
theorem pySplit_append_last (d : Char) (g : Str) (hg : d ∉ g) :
    ∀ (t : Str), pySplit [d] (t ++ d :: g) = pySplit [d] t ++ [g]
  | [] => by
    simp [pySplit_cons_self, pySplit_no_delim d g hg]
    rfl
  | c :: t => by
    by_cases hc : c = d
    · subst hc
      rw [List.cons_append, pySplit_cons_self, pySplit_cons_self,
        pySplit_append_last c g hg t]
      rfl
    · cases hsplit : pySplit [d] t with
      | nil => exact absurd hsplit (pySplit_ne_nil [d] t)
      | cons r rs =>
        have h1 := pySplit_append_last d g hg t
        rw [hsplit] at h1
        have h2 := pySplit_cons_ne d c (t ++ d :: g) hc r (rs ++ [g]) (by simpa using h1)
        have h3 := pySplit_cons_ne d c t hc r rs hsplit
        rw [List.cons_append, h2, h3]
        rfl

/-- `d.join(t.split(d))` recovers `t` for a one-character separator. -/
theorem pyJoin_pySplit (d : Char) : ∀ (t : Str), pyJoin [d] (pySplit [d] t) = t
  | [] => rfl
  | c :: t => by
    by_cases hc : c = d
    · subst hc
      rw [pySplit_cons_self]
      cases hsplit : pySplit [c] t with
      | nil => exact absurd hsplit (pySplit_ne_nil [c] t)
      | cons r rs =>
        have := pyJoin_pySplit c t
        rw [hsplit] at this
        simp [pyJoin, ← this]
    · cases hsplit : pySplit [d] t with
      | nil => exact absurd hsplit (pySplit_ne_nil [d] t)
      | cons r rs =>
        rw [pySplit_cons_ne d c t hc r rs hsplit]
        have := pyJoin_pySplit d t
        rw [hsplit] at this
        cases rs with
        | nil => simpa [pyJoin] using congrArg (c :: ·) this
        | cons y ys => simpa [pyJoin] using congrArg (c :: ·) this

/-! ## Lemmas about `stripFence` -/

/-- Stripping a fenced wrapper whose fence lines occupy exactly the
first and the last line recovers the wrapped text. -/
theorem stripFence_wrap (f1 f2 text : Str) (hf : "```".data.isPrefixOf f1 = true)
    (h1 : '\n' ∉ f1) (h2 : '\n' ∉ f2) :
    stripFence (f1 ++ '\n' :: (text ++ '\n' :: f2)) = text := by
  have hfw : "```".data.isPrefixOf (f1 ++ '\n' :: (text ++ '\n' :: f2)) = true :=
    isPrefixOf_append_left _ f1 _ hf
  simp only [stripFence, hfw, if_true]
  rw [pySplit_append_cons '\n' f1 (text ++ '\n' :: f2) h1,
    pySplit_append_last '\n' f2 h2 text]
  simp only [List.drop_succ_cons, List.drop_zero]
  rw [List.dropLast_concat]
  exact pyJoin_pySplit '\n' text

/-- A text that does not begin with a fence is left unchanged. -/
theorem stripFence_id (text : Str) (hnf : "```".data.isPrefixOf text = false) :
    stripFence text = text := by
  simp [stripFence, hnf]

/-! ## Claims -/

/-- C9: for every generation reply text, wrapping it in a code-fence
delimiter occupying exactly the first and last lines and parsing with
`_parse_response` produces the same result as parsing the unwrapped
text, for any behaviour of `json.loads` (in particular for every
valid JSON reply of the expected schema, which never begins with a
backtick). -/
theorem parse_response_fence_invariant (jsonLoads : Str → Except PyErr Json)
    (f1 f2 text : Str) (ct : Int)
    (hf : "```".data.isPrefixOf f1 = true) (h1 : '\n' ∉ f1) (h2 : '\n' ∉ f2)
    (hnf : "```".data.isPrefixOf text = false) :
    parse_response jsonLoads (f1 ++ '\n' :: (text ++ '\n' :: f2)) ct =
      parse_response jsonLoads text ct := by
  unfold parse_response
  rw [stripFence_wrap f1 f2 text hf h1 h2, stripFence_id text hnf]

/-- Witness for C9 at a concrete fenced reply. -/
theorem parse_response_fence_invariant_witness :
    ("```".data.isPrefixOf "```json".data = true ∧ '\n' ∉ "```json".data ∧
      '\n' ∉ "```".data ∧ "```".data.isPrefixOf "{}".data = false) ∧
    parse_response loadsFail ("```json".data ++ '\n' :: ("{}".data ++ '\n' :: "```".data)) 0 =
      parse_response loadsFail "{}".data 0 :=
  ⟨⟨by decide, by decide, by decide, by decide⟩,
    parse_response_fence_invariant loadsFail "```json".data "```".data "{}".data 0
      (by decide) (by decide) (by decide) (by decide)⟩

/-! ## Lemmas about `dictPop` and `parse_blocks` -/

theorem dictPop_of_not_mem (key : Str) :
    ∀ (data : List (Str × PyVal)), key ∉ data.map Prod.fst →
      dictPop key data = Except.error PyErr.keyError
  | [], _ => rfl
  | (k, v) :: rest, h => by
    simp only [List.map_cons, List.mem_cons, not_or] at h
    obtain ⟨h1, h2⟩ := h
    have hk : ¬ k = key := fun hh => h1 hh.symm
    simp [dictPop, hk, dictPop_of_not_mem key rest h2]

theorem parse_blocks_error_of_mem (e : PyErr) :
    ∀ (bs : List Str) (b : Str), b ∈ bs → parse_commit_block b = Except.error e →
      pyOk (parse_blocks bs) = false
  | [], b, hb, _ => absurd hb (List.not_mem_nil b)
  | b0 :: bs, b, hb, hberr => by
    cases h0 : parse_commit_block b0 with
    | error e0 => simp [parse_blocks, h0, pyOk]
    | ok r =>
      rcases List.mem_cons.mp hb with rfl | hmem
      · rw [h0] at hberr; exact absurd hberr (by simp)
      · have hrec := parse_blocks_error_of_mem e bs b hmem hberr
        cases hrest : parse_blocks bs with
        | error e1 => simp [parse_blocks, h0, hrest, pyOk]
        | ok rs => rw [hrest] at hrec; simp [pyOk] at hrec

/-! ## Supporting facts about `get_tasks` / `get_logs` -/

/-- With no bounds and no category, `get_tasks` returns the full
stored list (the `from=to=None` part of the contract holds). -/
theorem get_tasks_none_none_none (tasks : List ClosedTask) :
    get_tasks tasks none none none = tasks := by
  simp [get_tasks, skipFrom, skipTo, skipCategory]

/-- With no bounds, `get_logs` returns the full stored list. -/
theorem get_logs_none_none (rows : List LogRow) :
    get_logs rows none none = rows := by
  simp [get_logs]

/-- `get_logs` with both bounds keeps exactly the rows whose `day`
satisfies both inclusive comparisons (pandas mask semantics). -/
theorem mem_get_logs (rows : List LogRow) (f t : Int) (row : LogRow) :
    row ∈ get_logs rows (some f) (some t) ↔
      row ∈ rows ∧ dayGE row f = true ∧ dayLE row t = true := by
  simp [get_logs, List.mem_filter, Bool.and_eq_true, and_assoc]

/-! ## Claims about the repository and filtering (C1) -/

/-- C1: evaluation of `get_tasks` at a failing input.  The stored task
finished at timestamp 150, which lies inside the inclusive range
`[100, 200]`, yet `get_tasks` returns the empty list: the comparison
directions in the two date guards are inverted, so an in-range task is
always skipped whenever `from < to`.  This contradicts the claim that
exactly the tasks with `finished_at` in `[from, to]` are returned. -/
theorem get_tasks_excludes_in_range :
    get_tasks [task150] (some 100) (some 200) none = [] ∧
      task150.finished_at = some 150 ∧ (100 : Int) ≤ 150 ∧ (150 : Int) ≤ 200 := by
  decide

/-- Supporting fact for the round-trip intent: for a task without the
optional estimate/skill lines, the serialized form ends with the
one-letter category code (the f-string renders the enum member as
`Category.X`), so re-parsing the line with `line.strip()[-1]` would
recover the original code. -/
theorem pyStr_ends_with_code (t : ClosedTask) (h1 : t.estimated_time = none)
    (h2 : t.min_skill_level = none) :
    t.pyStr.getLast? = some (t.category.value.headI) := by
  obtain ⟨tx, cat, et, msl, pa, sa, fa, la, lr⟩ := t
  dsimp only at h1 h2
  subst h1
  subst h2
  cases cat <;> simp [ClosedTask.pyStr, Category.value, List.getLast?_append]

/-! ## Claims about `ClosedTask` construction (C8, C10) -/

/-- C8: evaluation of the closed-tasks line parser at the failing
input.  Parsing the historical task line `"Fix login bug B\n"` does
not produce a `ClosedTask` that could be re-serialized: the
constructor raises `KeyError` at `data.pop("text")`, because `text`
and `category` are bound to the two named parameters and are therefore
absent from the `**data` dictionary. -/
theorem load_closed_tasks_line_keyError :
    load_closed_tasks_line taskLineC8 0 = Except.error PyErr.keyError := by
  decide

/-- C10: whenever the keyword dictionary passed to
`ClosedTask.__init__` lacks a `text` key — as at every construction
site in the repository — no `ClosedTask` value is produced, and when
the supplied category is one of the valid codes the raised exception
is precisely the `KeyError` from `data.pop("text")`. -/
theorem closedTask_init_no_text_key (text category : Str) (data : List (Str × PyVal))
    (h : "text".data ∉ data.map Prod.fst) :
    (∀ t, ClosedTask.init text category data ≠ Except.ok t) ∧
      (∀ c, Category.ofValue category = Except.ok c →
        ClosedTask.init text category data = Except.error PyErr.keyError) := by
  constructor
  · intro t hok
    cases hcat : Category.ofValue category with
    | error e =>
      simp [ClosedTask.init, hcat] at hok
    | ok c =>
      simp [ClosedTask.init, hcat, dictPop_of_not_mem "text".data data h] at hok
  · intro c hcat
    simp [ClosedTask.init, hcat, dictPop_of_not_mem "text".data data h]

/-- Witness for C10 at the `load_closed_tasks` keyword dictionary
shape. -/
theorem closedTask_init_no_text_key_witness :
    ("text".data ∉ dataC10.map Prod.fst ∧
      Category.ofValue "B".data = Except.ok Category.B) ∧
    ClosedTask.init "x".data "B".data dataC10 = Except.error PyErr.keyError :=
  ⟨⟨by decide, by decide⟩,
    (closedTask_init_no_text_key "x".data "B".data dataC10 (by decide)).2
      Category.B (by decide)⟩

/-! ## Claims about the log parser (C6, C7) -/

/-- C6 counterexample: a raw log whose first block is well-formed and
whose second block lacks the title line.  The parse does not skip the
bad entry and keep the good one: it raises `IndexError` and produces
no records at all, refuting the claim that a single bad entry never
aborts the whole parse. -/
theorem load_git_logs_no_skip_counterexample :
    load_git_logs badLogC6 = Except.error PyErr.indexError ∧
      goodBlockC6 ∈ pySplit commitDelim badLogC6 ∧
      pyOk (parse_commit_block goodBlockC6) = true := by
  decide

/-- C6 (amended): a commit block missing a required positional line
makes the whole parse fail; no record is produced for any block,
well-formed or not (there is no per-entry skipping). -/
theorem load_git_logs_malformed_aborts (text b : Str) (e : PyErr)
    (hb : b ∈ pySplit commitDelim text)
    (herr : parse_commit_block b = Except.error e) :
    pyOk (load_git_logs text) = false := by
  unfold load_git_logs
  exact parse_blocks_error_of_mem e _ b hb herr

/-- Witness for the amended C6 at the concrete malformed log. -/
theorem load_git_logs_malformed_aborts_witness :
    (badBlockC6 ∈ pySplit commitDelim badLogC6 ∧
      parse_commit_block badBlockC6 = Except.error PyErr.indexError) ∧
    pyOk (load_git_logs badLogC6) = false :=
  ⟨⟨by decide, by decide⟩,
    load_git_logs_malformed_aborts badLogC6 badBlockC6 PyErr.indexError
      (by decide) (by decide)⟩

/-! ## Splitting at the first delimiter occurrence (C7) -/

theorem pySplitAux_cons_pos (delim : Str) (c : Char) (cs : Str)
    (h : delim.isPrefixOf (c :: cs) = true) :
    pySplitAux delim (c :: cs) 0 = [] :: pySplitAux delim cs (delim.length - 1) := by
  simp only [pySplitAux, h, if_true]

theorem pySplitAux_cons_neg (delim : Str) (c : Char) (cs : Str)
    (h : delim.isPrefixOf (c :: cs) = false) :
    pySplitAux delim (c :: cs) 0 =
      match pySplitAux delim cs 0 with
      | [] => [[c]]
      | r :: rs => (c :: r) :: rs := by
  simp only [pySplitAux, h, Bool.false_eq_true, if_false]

/-- If no occurrence of the (non-empty) delimiter starts inside `pre`,
then splitting `pre ++ (delim ++ rest)` cuts first exactly at the
shown delimiter, yielding `pre` as the first chunk. -/
theorem pySplit_delim_boundary (delim : Str) (hd : delim ≠ []) :
    ∀ (pre rest : Str),
      (∀ i, i < pre.length → delim.isPrefixOf ((pre ++ (delim ++ rest)).drop i) = false) →
      pySplit delim (pre ++ (delim ++ rest)) = pre :: pySplit delim rest
  | [], rest, _ => by
    cases delim with
    | nil => exact absurd rfl hd
    | cons d ds =>
      have hpref : (d :: ds).isPrefixOf (d :: (ds ++ rest)) = true :=
        isPrefixOf_append_self (d :: ds) rest
      show pySplitAux (d :: ds) ([] ++ (d :: (ds ++ rest))) 0 = [] :: pySplitAux (d :: ds) rest 0
      rw [List.nil_append, pySplitAux_cons_pos (d :: ds) d (ds ++ rest) hpref]
      simp only [List.length_cons, Nat.add_sub_cancel]
      rw [pySplitAux_skip]
  | p :: ps, rest, hno => by
    have h0 : delim.isPrefixOf (p :: (ps ++ (delim ++ rest))) = false := by
      have := hno 0 (by simp)
      simpa using this
    have hrec := pySplit_delim_boundary delim hd ps rest (fun i hi => by
      have := hno (i + 1) (by simpa using Nat.succ_lt_succ hi)
      simpa using this)
    show pySplitAux delim ((p :: ps) ++ (delim ++ rest)) 0 = (p :: ps) :: pySplitAux delim rest 0
    rw [List.cons_append, pySplitAux_cons_neg delim p (ps ++ (delim ++ rest)) h0]
    have hrec' : pySplitAux delim (ps ++ (delim ++ rest)) 0 = ps :: pySplitAux delim rest 0 := hrec
    rw [hrec']

/-- C7 counterexample: a raw log text with a document preamble before
the first `"\n\ncommit "` delimiter.  `str.split` keeps the preamble
as the first chunk, and the parser turns it into a commit record
(author `carol`): the output has two records, not one, so the preamble
is not discarded. -/
theorem load_git_logs_parses_preamble_counterexample :
    (load_git_logs textC7).map (fun l => l.map CommitRec.author) =
      Except.ok ["carol".data, "alice".data] ∧
    (load_git_logs textC7).map List.length = Except.ok 2 := by
  decide

/-- C7 (amended): the raw text is split on the delimiter token and the
text before the first delimiter is parsed as a commit block like any
other — contributing a record when well-formed, aborting the parse
when malformed — rather than being discarded. -/
theorem load_git_logs_keeps_preamble (pre rest : Str)
    (hno : ∀ i, i < pre.length →
      commitDelim.isPrefixOf ((pre ++ (commitDelim ++ rest)).drop i) = false) :
    load_git_logs (pre ++ (commitDelim ++ rest)) =
      (parse_commit_block pre >>= fun r0 =>
        parse_blocks (pySplit commitDelim rest) >>= fun rs =>
          Except.ok (r0 :: rs)) := by
  unfold load_git_logs
  rw [pySplit_delim_boundary commitDelim (by decide) pre rest hno]
  rfl

/-- Witness for the amended C7 at the concrete preamble log. -/
theorem load_git_logs_keeps_preamble_witness :
    (∀ i, i < preC7.length →
      commitDelim.isPrefixOf ((preC7 ++ (commitDelim ++ blockC7)).drop i) = false) ∧
    load_git_logs (preC7 ++ (commitDelim ++ blockC7)) =
      (parse_commit_block preC7 >>= fun r0 =>
        parse_blocks (pySplit commitDelim blockC7) >>= fun rs =>
          Except.ok (r0 :: rs)) :=
  ⟨by decide, load_git_logs_keeps_preamble preC7 blockC7 (by decide)⟩

/-! ## Lemmas about the retry loop and the commit loop (C2-C5) -/

/-- `_parse_response` ignores its `closed_at` argument (the source
accepts and never reads it). -/
theorem parse_response_closed_at_irrelevant (jsonLoads : Str → Except PyErr Json)
    (t : Str) (a b : Int) :
    parse_response jsonLoads t a = parse_response jsonLoads t b := rfl

theorem retry_loop_calls_le (gen : Nat → Except PyErr Resp)
    (jsonLoads : Str → Except PyErr Json) (setup base : Str) (c : CommitRow)
    (moves : Json) : ∀ n, (retry_loop gen jsonLoads setup base c moves n).2.1 ≤ n := by
  intro n
  induction n with
  | zero => simp [retry_loop]
  | succ n ih =>
    simp only [retry_loop]
    split
    · rename_i b v heq
      cases b <;> simp
    · rename_i b e heq
      cases b <;> simp only [cond] <;> omega

theorem retry_loop_success (gen : Nat → Except PyErr Resp)
    (jsonLoads : Str → Except PyErr Json) (setup base : Str) (c : CommitRow)
    (moves : Json) :
    ∀ n v calls iters,
      retry_loop gen jsonLoads setup base c moves n = (some v, calls, iters) →
      ∃ a, 1 ≤ a ∧ a ≤ n ∧
        (attempt_step (gen a) jsonLoads setup base c moves).2 = Except.ok v := by
  intro n
  induction n with
  | zero => intro v calls iters h; simp [retry_loop] at h
  | succ n ih =>
    intro v calls iters h
    simp only [retry_loop] at h
    split at h
    · rename_i b w heq
      have hv : w = v := by
        have := congrArg Prod.fst h
        simpa using this
      subst hv
      exact ⟨n + 1, by omega, le_refl _, by rw [heq]⟩
    · rename_i b e heq
      have h1 : (retry_loop gen jsonLoads setup base c moves n).1 = some v := by
        have := congrArg Prod.fst h
        simpa using this
      obtain ⟨a, ha1, ha2, ha3⟩ := ih v
        (retry_loop gen jsonLoads setup base c moves n).2.1
        (retry_loop gen jsonLoads setup base c moves n).2.2
        (by rw [← h1])
      exact ⟨a, ha1, Nat.le_succ_of_le ha2, ha3⟩

theorem attempt_step_ok (genCall : Except PyErr Resp)
    (jsonLoads : Str → Except PyErr Json) (setup base : Str) (c : CommitRow)
    (moves : Json) (v : List ClosedTask × Json)
    (h : (attempt_step genCall jsonLoads setup base c moves).2 = Except.ok v) :
    ∃ r, genCall = Except.ok r ∧
      parse_response jsonLoads r.response c.timestamp = Except.ok v := by
  unfold attempt_step analyze_commit at h
  by_cases hlen : 90000 < (full_prompt setup base c moves).length
  · simp [hlen] at h
  · simp only [hlen, if_false] at h
    cases hg : genCall with
    | error e => rw [hg] at h; simp [Except.map] at h
    | ok r =>
      rw [hg] at h
      simp only [Except.map] at h
      exact ⟨r, rfl, h⟩

theorem process_commit_spec (gen : Nat → Except PyErr Resp)
    (jsonLoads : Str → Except PyErr Json) (setup base : Str) (c : CommitRow)
    (st : LoopSt) :
    (process_commit gen jsonLoads setup base c st).2.1 ≤ 3 ∧
      ((process_commit gen jsonLoads setup base c st).1 = st ∨
        ∃ a rr ts, 1 ≤ a ∧ a ≤ 3 ∧ gen a = Except.ok rr ∧
          parse_response jsonLoads rr.response c.timestamp =
            Except.ok (ts, (process_commit gen jsonLoads setup base c st).1.unfinished_moves)) := by
  unfold process_commit
  cases hrl : retry_loop gen jsonLoads setup base c st.unfinished_moves 3 with
  | mk o rest =>
    have hcalls : rest.1 ≤ 3 := by
      have := retry_loop_calls_le gen jsonLoads setup base c st.unfinished_moves 3
      rw [hrl] at this
      exact this
    cases o with
    | none => exact ⟨hcalls, Or.inl rfl⟩
    | some v =>
      obtain ⟨ts, mv⟩ := v
      obtain ⟨a, ha1, ha2, ha3⟩ :=
        retry_loop_success gen jsonLoads setup base c st.unfinished_moves 3
          (ts, mv) rest.1 rest.2 (by rw [hrl])
      obtain ⟨rr, hrr1, hrr2⟩ :=
        attempt_step_ok (gen a) jsonLoads setup base c st.unfinished_moves (ts, mv) ha3
      exact ⟨hcalls, Or.inr ⟨a, rr, ts, ha1, ha2, hrr1, hrr2⟩⟩

theorem process_commit_tasksVar_mono (gen : Nat → Except PyErr Resp)
    (jsonLoads : Str → Except PyErr Json) (setup base : Str) (c : CommitRow)
    (st : LoopSt) (h : st.tasksVar.isSome = true) :
    ((process_commit gen jsonLoads setup base c st).1).tasksVar.isSome = true := by
  unfold process_commit
  cases hrl : retry_loop gen jsonLoads setup base c st.unfinished_moves 3 with
  | mk o rest =>
    cases o with
    | none => exact h
    | some v => obtain ⟨ts, mv⟩ := v; rfl

theorem run_loop_invariant (oracle : Nat → Nat → Except PyErr Resp)
    (jsonLoads : Str → Except PyErr Json) (setup base : Str) :
    ∀ (cs : List CommitRow) (i : Nat) (st : LoopSt),
      ∀ step ∈ run_loop oracle jsonLoads setup base i cs st,
        step.calls ≤ 3 ∧
          (step.movesAfter = step.movesBefore ∨
            ∃ a rr ts, 1 ≤ a ∧ a ≤ 3 ∧ oracle step.idx a = Except.ok rr ∧
              parse_response jsonLoads rr.response 0 = Except.ok (ts, step.movesAfter))
  | [], i, st => by
    intro step hstep
    simp [run_loop] at hstep
  | c :: cs, i, st => by
    intro step hstep
    have hspec := process_commit_spec (oracle i) jsonLoads setup base c st
    simp only [run_loop] at hstep
    split at hstep
    · rcases List.mem_singleton.mp hstep with rfl
      refine ⟨hspec.1, ?_⟩
      rcases hspec.2 with h | ⟨a, rr, ts, h1, h2, h3, h4⟩
      · exact Or.inl (by rw [h])
      · exact Or.inr ⟨a, rr, ts, h1, h2, h3, h4⟩
    · rcases List.mem_cons.mp hstep with rfl | hmem
      · refine ⟨hspec.1, ?_⟩
        rcases hspec.2 with h | ⟨a, rr, ts, h1, h2, h3, h4⟩
        · exact Or.inl (by rw [h])
        · exact Or.inr ⟨a, rr, ts, h1, h2, h3, h4⟩
      · exact run_loop_invariant oracle jsonLoads setup base cs (i + 1)
          (process_commit (oracle i) jsonLoads setup base c st).1 step hmem

theorem run_loop_complete (oracle : Nat → Nat → Except PyErr Resp)
    (jsonLoads : Str → Except PyErr Json) (setup base : Str) :
    ∀ (cs : List CommitRow) (i : Nat) (st : LoopSt), st.tasksVar.isSome = true →
      (run_loop oracle jsonLoads setup base i cs st).length = cs.length ∧
        (∀ step ∈ run_loop oracle jsonLoads setup base i cs st,
          step.yielded.isSome = true) ∧
        (run_loop oracle jsonLoads setup base i cs st).map StepInfo.idx =
          List.range' i cs.length
  | [], i, st, _ => by simp [run_loop, List.range']
  | c :: cs, i, st, h => by
    have hmono := process_commit_tasksVar_mono (oracle i) jsonLoads setup base c st h
    obtain ⟨b, hb⟩ := Option.isSome_iff_exists.mp hmono
    have hrec := run_loop_complete oracle jsonLoads setup base cs (i + 1)
      (process_commit (oracle i) jsonLoads setup base c st).1 (by rw [hb]; rfl)
    simp only [run_loop, hb]
    refine ⟨by simp [hrec.1], ?_, ?_⟩
    · intro step hstep
      rcases List.mem_cons.mp hstep with rfl | hmem
      · rfl
      · exact hrec.2.1 step hmem
    · simp [hrec.2.2, List.range']

/-! ## Claims about the state machine (C2-C5) -/

set_option maxRecDepth 400000 in
/-- C2: evaluation at the failing input.  With four commits (so two
are processed, at indices 2 and 3) and a backend that fails every
attempt for the first processed commit, the run does not yield an
empty batch for that commit and continue: the `yield tasks` statement
raises `NameError` because the local `tasks` was never assigned, the
generator aborts, and the second processed commit is never reached.
The carry-over is left unchanged, but no empty batch is produced. -/
theorem retries_exhausted_aborts_counterexample :
    (analyze_git_logs oracleC2 myLoads [] [] logs4).map
        (fun s => (s.idx, s.yielded.isSome)) = [(2, false)] ∧
      logs4.length - 2 = 2 := by
  decide

/-- C3: for every commit whose assembled request exceeds the
90000-character ceiling while it is the first processed commit, the
step does not merely yield zero tasks: `analyze_commit` returns the
`([], unfinished_moves)` tuple, the caller's `response.done` access
raises `AttributeError` on it, the retry loop spins through all three
budgeted passes (making no backend call), and the final `yield tasks`
raises `NameError`, aborting the run with no batch at all.
`unfinished_moves` is indeed left unchanged. -/
theorem oversized_request_spins_and_aborts (oracle : Nat → Nat → Except PyErr Resp)
    (jsonLoads : Str → Except PyErr Json) (setup base : Str) (c : CommitRow)
    (rest : List CommitRow)
    (hbig : 90000 < (full_prompt setup base c initState.unfinished_moves).length) :
    run_loop oracle jsonLoads setup base 2 (c :: rest) initState =
      [{ idx := 2, movesBefore := initState.unfinished_moves,
         movesAfter := initState.unfinished_moves, calls := 0, iters := 3,
         yielded := none }] := by
  have hstep : ∀ g, attempt_step g jsonLoads setup base c initState.unfinished_moves =
      (false, Except.error PyErr.attributeError) := by
    intro g
    unfold attempt_step analyze_commit
    simp [hbig]
  have hrl : retry_loop (oracle 2) jsonLoads setup base c initState.unfinished_moves 3 =
      (none, 0, 3) := by
    simp [retry_loop, hstep]
  have hpc : process_commit (oracle 2) jsonLoads setup base c initState =
      (initState, 0, 3) := by
    unfold process_commit
    rw [hrl]
  simp only [run_loop, hpc]
  rfl

/-- Witness for the C3 evaluation: a commit of 100000 `a` characters
exceeds the ceiling (the truncated commit text alone is longer than
90000), and the run aborts exactly as stated. -/
theorem oversized_request_spins_and_aborts_witness :
    90000 < (full_prompt [] [] bigRow initState.unfinished_moves).length ∧
    run_loop oracleFail loadsFail [] [] 2 [bigRow] initState =
      [{ idx := 2, movesBefore := initState.unfinished_moves,
         movesAfter := initState.unfinished_moves, calls := 0, iters := 3,
         yielded := none }] := by
  have hbig : 90000 < (full_prompt [] [] bigRow initState.unfinished_moves).length := by
    simp only [full_prompt, inner_prompt, bigRow, initState, pyStrOfJson,
      List.length_append, List.length_take, List.length_replicate]
    omega
  exact ⟨hbig, oversized_request_spins_and_aborts oracleFail loadsFail [] [] bigRow [] hbig⟩

/-- C4: for every commit sequence, backend behaviour and JSON decoder,
every step of the state machine makes at most 3 backend calls for its
commit, and the carry-over after the step either equals the value held
before the step (failure or skip) or is exactly the
`unfinished_moves` component of a successful `_parse_response` result
obtained from one of that commit's attempts. -/
theorem analyze_git_logs_moves_invariant (oracle : Nat → Nat → Except PyErr Resp)
    (jsonLoads : Str → Except PyErr Json) (setup base : Str) (logs : List CommitRow) :
    ∀ step ∈ analyze_git_logs oracle jsonLoads setup base logs,
      step.calls ≤ 3 ∧
        (step.movesAfter = step.movesBefore ∨
          ∃ a rr ts, 1 ≤ a ∧ a ≤ 3 ∧ oracle step.idx a = Except.ok rr ∧
            parse_response jsonLoads rr.response 0 = Except.ok (ts, step.movesAfter)) :=
  run_loop_invariant oracle jsonLoads setup base (logs.reverse.drop 2) 2 initState

set_option maxRecDepth 400000 in
/-- Witness for C4 at a concrete run whose only step exhausts its
retries. -/
theorem analyze_git_logs_moves_invariant_witness :
    stepC4 ∈ analyze_git_logs oracleFail loadsFail [] [] logs3 ∧
      (stepC4.calls ≤ 3 ∧
        (stepC4.movesAfter = stepC4.movesBefore ∨
          ∃ a rr ts, 1 ≤ a ∧ a ≤ 3 ∧ oracleFail stepC4.idx a = Except.ok rr ∧
            parse_response loadsFail rr.response 0 = Except.ok (ts, stepC4.movesAfter))) := by
  have hmem : stepC4 ∈ analyze_git_logs oracleFail loadsFail [] [] logs3 := by
    rw [show analyze_git_logs oracleFail loadsFail [] [] logs3 = [stepC4] from rfl]
    exact List.mem_singleton_self stepC4
  exact ⟨hmem,
    analyze_git_logs_moves_invariant oracleFail loadsFail [] [] logs3 stepC4 hmem⟩

set_option maxRecDepth 400000 in
/-- C5 counterexample: with three commits (one to process) and a
backend that always fails, the state machine yields no batch at all
(the first processed commit's `yield tasks` raises `NameError`),
refuting the unconditional `n - 2` batch count. -/
theorem analyze_git_logs_batches_counterexample :
    ((analyze_git_logs oracleFail loadsFail [] [] logs3).filterMap
        StepInfo.yielded).length = 0 ∧
      logs3.length - 2 = 1 := by
  decide

/-- C5 (amended): the state machine walks `commits.reverse()` (the
stored rows are newest-first, so this is oldest-first) skipping the
first two entries, and — provided the first processed commit's retry
loop succeeds on some attempt, so that the loop-local `tasks` is bound
at the first `yield` — it yields exactly one batch per processed
commit, `n - 2` in total, at the consecutive commit indices
`2, …, n - 1` in commit order. -/
theorem analyze_git_logs_batches (oracle : Nat → Nat → Except PyErr Resp)
    (jsonLoads : Str → Except PyErr Json) (setup base : Str) (logs : List CommitRow)
    (_h2 : 2 ≤ logs.length)
    (hfirst : ∀ c0 ∈ (logs.reverse.drop 2).take 1,
      ((process_commit (oracle 2) jsonLoads setup base c0 initState).1).tasksVar.isSome = true) :
    (analyze_git_logs oracle jsonLoads setup base logs).length = logs.length - 2 ∧
      (∀ step ∈ analyze_git_logs oracle jsonLoads setup base logs,
        step.yielded.isSome = true) ∧
      (analyze_git_logs oracle jsonLoads setup base logs).map StepInfo.idx =
        List.range' 2 (logs.length - 2) := by
  have hlen : (logs.reverse.drop 2).length = logs.length - 2 := by simp
  unfold analyze_git_logs
  cases hP : logs.reverse.drop 2 with
  | nil =>
    rw [hP] at hlen
    simp [run_loop, ← hlen, List.range']
  | cons c0 rest =>
    rw [hP] at hlen hfirst
    have h0 := hfirst c0 (by simp)
    obtain ⟨b, hb⟩ := Option.isSome_iff_exists.mp h0
    have hrec := run_loop_complete oracle jsonLoads setup base rest 3
      (process_commit (oracle 2) jsonLoads setup base c0 initState).1 (by rw [hb]; rfl)
    have hn : logs.length - 2 = rest.length + 1 := by
      simp only [List.length_cons] at hlen
      omega
    rw [hn]
    simp only [run_loop, hb]
    refine ⟨by simp [hrec.1], ?_, ?_⟩
    · intro step hstep
      rcases List.mem_cons.mp hstep with rfl | hmem
      · rfl
      · exact hrec.2.1 step hmem
    · simp [hrec.2.2, List.range']

set_option maxRecDepth 400000 in
/-- Witness for the amended C5 at a run whose single processed commit
succeeds at once. -/
theorem analyze_git_logs_batches_witness :
    (2 ≤ logs3.length ∧
      ∀ c0 ∈ (logs3.reverse.drop 2).take 1,
        ((process_commit (oracleOK 2) myLoads [] [] c0 initState).1).tasksVar.isSome = true) ∧
    ((analyze_git_logs oracleOK myLoads [] [] logs3).length = logs3.length - 2 ∧
      (∀ step ∈ analyze_git_logs oracleOK myLoads [] [] logs3,
        step.yielded.isSome = true) ∧
      (analyze_git_logs oracleOK myLoads [] [] logs3).map StepInfo.idx =
        List.range' 2 (logs3.length - 2)) :=
  ⟨⟨by decide, by decide⟩,
    analyze_git_logs_batches oracleOK myLoads [] [] logs3 (by decide) (by decide)⟩

end MPM
